import Mathlib

/-!
Shallow embedding of the go-ditor text editor (module `editor`, file embedded
from the byte-based variant, plus the standalone `main.go` variant where the
two differ).  Go `int` is modelled as `Int` (no arithmetic in the embedded
claims approaches machine-integer bounds), Go `byte` as `Nat` holding the byte
value, Go `[]byte` as `List Nat`, Go `[]int` as `List Int`.  Array writes
`xs[i] = v` become `List.set`, which is a no-op out of bounds; every such
write in the source is guarded so the two agree in bounds.
-/

namespace Goditor

/-- Go string literal, as the list of its byte values (all source strings are
ASCII). -/
def chs (s : List Char) : List Nat := s.map Char.toNat

/- Config constants from the source. -/
def TAB_STOP : Nat := 4
def CONTROL_SEQUENCE_WIDTH : Nat := 2
def QUIT_TIMES : Int := 3

/- Key aliases (Go iota: BACKSPACE is the 0th constant, ARROW_LEFT = iota+1000
with iota = 1). -/
def BACKSPACE : Int := 127
def ARROW_LEFT : Int := 1001
def ARROW_RIGHT : Int := 1002
def ARROW_UP : Int := 1003
def ARROW_DOWN : Int := 1004
def DELETE_KEY : Int := 1005
def HOME_KEY : Int := 1006
def END_KEY : Int := 1007
def PAGE_UP : Int := 1008
def PAGE_DOWN : Int := 1009

/- Syntax highlighting types (iota). -/
def HL_NORMAL : Int := 0
def HL_COMMENT : Int := 1
def HL_MLCOMMENT : Int := 2
def HL_KEYWORD1 : Int := 3
def HL_KEYWORD2 : Int := 4
def HL_STRING : Int := 5
def HL_NUMBER : Int := 6
def HL_MATCH : Int := 7
def HL_CONTROL : Int := 8

/- Syntax highlighting flags. -/
def HL_HIGHLIGHT_NUMBERS : Nat := 1
def HL_HIGHLIGHT_STRINGS : Nat := 2

/-- `isControl`: `c < 32 || c == 127`. -/
def isControl (c : Nat) : Bool := c < 32 || c == 127

/-- `isDigit`: `c >= '0' && c <= '9'`. -/
def isDigit (c : Nat) : Bool := 48 ≤ c && c ≤ 57

/-- `withControlKey`: `c & 0x1f`.  Key codes are non-negative, where `& 0x1f`
coincides with `% 32`. -/
def withControlKey (c : Int) : Int := c % 32

/-- `isSeparator`: whitespace, NUL, or one of the punctuation bytes in the Go
string literal of separators. -/
def isSeparator (c : Nat) : Bool :=
  if c == 32 || c == 9 || c == 10 || c == 13 || c == 11 || c == 12 || c == 0 then
    true
  else
    (chs [',', '.', '(', ')', '+', '-', '/', '*', '=', '~', '%', '<', '>', '[', ']', ';']).contains c

/-- `editorSyntax` (module variant: `keywords [][]string`).  The Go field
`syntax` of the editor is spelled `synt` below because `syntax` is a Lean
keyword. -/
structure EditorSyntax where
  filetype : List Nat
  filematch : List (List Nat)
  keywords : List (List (List Nat))
  singlelineCommentStart : List Nat
  multilineCommentStart : List Nat
  multilineCommentEnd : List Nat
  flags : Nat
deriving DecidableEq

/-- `editorRow`.  The Go `idx` field is maintained equal to the row's position
in `e.row` by the renumbering loops of `InsertRow`/`DeleteRow`; the embedding
addresses rows by position instead of carrying the field. -/
structure EditorRow where
  chars : List Nat
  render : List Nat
  hl : List Int
  hlOpenComment : Bool
deriving DecidableEq

/-- `Editor` state (the IO-only fields — filename, status message, terminal —
are omitted; no embedded operation reads them). -/
structure Editor where
  cx : Int
  cy : Int
  rx : Int
  rowOffset : Int
  colOffset : Int
  screenRows : Int
  screenCols : Int
  totalRows : Int
  row : List EditorRow
  dirty : Int
  synt : Option EditorSyntax
  mode : Int
deriving DecidableEq

/-! ### Row operations: cxToRx, rxToCx, Update (render) -/

/-- Loop body of `cxToRx`, folding over the first `cx` characters. -/
def cxToRxAux : List Nat → Nat → Nat
  | [], rx => rx
  | c :: rest, rx =>
    if c == 9 then cxToRxAux rest (rx + (TAB_STOP - rx % TAB_STOP))
    else if isControl c then cxToRxAux rest (rx + CONTROL_SEQUENCE_WIDTH)
    else cxToRxAux rest (rx + 1)

/-- `(row *editorRow) cxToRx(cx)`: `for j := range cx` reads `row.chars[j]`,
so only the first `cx` characters matter (callers keep `cx ≤ len(chars)`). -/
def EditorRow.cxToRx (row : EditorRow) (cx : Nat) : Nat :=
  cxToRxAux (row.chars.take cx) 0

/-- Loop body of `rxToCx`: note the source adds `CONTROL_SEQUENCE_WIDTH` for a
control character and then unconditionally `curRx++`, while the tab branch
adds `(TAB_STOP - 1) - curRx % TAB_STOP` before the shared `curRx++`. -/
def rxToCxAux : List Nat → Int → Nat → Nat → Nat
  | [], _, cx, _ => cx
  | c :: rest, rx, cx, curRx =>
    let curRx :=
      if c == 9 then curRx + ((TAB_STOP - 1) - curRx % TAB_STOP) + 1
      else if isControl c then curRx + CONTROL_SEQUENCE_WIDTH + 1
      else curRx + 1
    if (curRx : Int) > rx then cx else rxToCxAux rest rx (cx + 1) curRx

/-- `(row *editorRow) rxToCx(rx)`. -/
def EditorRow.rxToCx (row : EditorRow) (rx : Int) : Nat :=
  rxToCxAux row.chars rx 0 0

/-- Inner loop of `Update` for a tab: after the first space, emit spaces while
`idx % TAB_STOP != 0`.  The loop runs at most `TAB_STOP - 1` times, so
`TAB_STOP` fuel is never exhausted. -/
def tabPadLoop : Nat → Nat → List Nat
  | 0, _ => []
  | fuel + 1, idx =>
    if idx % TAB_STOP != 0 then 32 :: tabPadLoop fuel (idx + 1) else []

/-- Render loop of `(row *editorRow) Update`: tabs expand to the next
`TAB_STOP` boundary, control characters render as `^` plus a printable
(`?` for DEL, `[` for ESC, else `char + '@'`), everything else verbatim.
`idx` is the current render column. -/
def renderChars : List Nat → Nat → List Nat
  | [], _ => []
  | c :: rest, idx =>
    if c == 9 then
      let pad := tabPadLoop TAB_STOP (idx + 1)
      32 :: pad ++ renderChars rest (idx + 1 + pad.length)
    else if isControl c then
      94 :: (if c == 127 then 63 else if c == 27 then 91 else c + 64) ::
        renderChars rest (idx + 2)
    else c :: renderChars rest (idx + 1)

/-! ### Syntax highlighting (module variant, `UpdateSyntax`) -/

/-- `for j := range count { if i+j in bounds { hl[i+j] = v } }` — the bounds
guard is implicit in `List.set`. -/
def hlSetRange (hl : List Int) (i count : Nat) (v : Int) : List Int :=
  match count with
  | 0 => hl
  | n + 1 => hlSetRange (hl.set i v) (i + 1) n v

/-- `for j := i; j < len(hl); j++ { hl[j] = v }`. -/
def hlFillFrom (hl : List Int) (i : Nat) (v : Int) : List Int :=
  hlSetRange hl i (hl.length - i) v

/-- Inner loop of the `^[`-sequence branch of `UpdateSyntax`: paint
`HL_CONTROL` forward until a letter or one of `~ m H J K` ends the sequence.
`j` advances every iteration, so `render.length` fuel is never exhausted. -/
def controlSeqLoop (render : List Nat) : Nat → Nat → List Int → List Int × Nat
  | 0, j, hl => (hl, j)
  | fuel + 1, j, hl =>
    if j < render.length then
      let ch := render.getD j 0
      let hl := hl.set j HL_CONTROL
      let j := j + 1
      if (65 ≤ ch && ch ≤ 90) || (97 ≤ ch && ch ≤ 122) then (hl, j)
      else if ch == 126 || ch == 109 || ch == 72 || ch == 74 || ch == 75 then (hl, j)
      else controlSeqLoop render fuel j hl
    else (hl, j)

/-- Keyword pass of the module `UpdateSyntax`: for the `j`-th sublist, every
keyword that is a prefix of `render[i:]` paints `HL_KEYWORD1 + j` over its
length (no following-separator check, no break). -/
def keywordScanList (render : List Nat) (i : Nat) (v : Int) :
    List (List Nat) → List Int → List Int
  | [], hl => hl
  | kw :: rest, hl =>
    let hl := if kw.isPrefixOf (render.drop i) then hlSetRange hl i kw.length v else hl
    keywordScanList render i v rest hl

def keywordScanAux (render : List Nat) (i : Nat) :
    Nat → List (List (List Nat)) → List Int → List Int
  | _, [], hl => hl
  | j, sub :: rest, hl =>
    keywordScanAux render i (j + 1) rest (keywordScanList render i (HL_KEYWORD1 + j) sub hl)

def keywordScan (keywords : List (List (List Nat))) (render : List Nat) (i : Nat)
    (hl : List Int) : List Int :=
  keywordScanAux render i 0 keywords hl

/-- Main loop of `(row *editorRow) UpdateSyntax` (module variant), one
constructor case per iteration.  State: position `i`, `prevSep`, `inString`
(the open quote byte or 0), `inComment`; result: final `hl` and the
`inComment` value at loop exit.  Every branch advances `i` by at least one, so
`render.length` fuel is never exhausted. -/
def updateSyntaxLoop (syn : EditorSyntax) (render : List Nat) :
    Nat → Nat → Bool → Nat → Bool → List Int → List Int × Bool
  | 0, _, _, _, inComment, hl => (hl, inComment)
  | fuel + 1, i, prevSep, inString, inComment, hl =>
    if i < render.length then
      let c := render.getD i 0
      let prevHl := if i > 0 then hl.getD (i - 1) HL_NORMAL else HL_NORMAL
      if inString == 0 && !inComment && c == 94 && i + 1 < render.length then
        let hl := (hl.set i HL_CONTROL).set (i + 1) HL_CONTROL
        if i + 1 < render.length && render.getD (i + 1) 0 == 91 then
          let hj := controlSeqLoop render fuel (i + 2) hl
          updateSyntaxLoop syn render fuel hj.2 true inString inComment hj.1
        else
          updateSyntaxLoop syn render fuel (i + 2) true inString inComment hl
      else if syn.singlelineCommentStart.length > 0 && inString == 0 && !inComment
          && syn.singlelineCommentStart.isPrefixOf (render.drop i) then
        (hlFillFrom hl i HL_COMMENT, inComment)
      else if syn.multilineCommentStart.length > 0 && syn.multilineCommentEnd.length > 0
          && inString == 0 && inComment then
        let hl := hl.set i HL_MLCOMMENT
        if syn.multilineCommentEnd.isPrefixOf (render.drop i) then
          updateSyntaxLoop syn render fuel (i + syn.multilineCommentEnd.length) prevSep
            inString false (hlSetRange hl i syn.multilineCommentEnd.length HL_MLCOMMENT)
        else
          updateSyntaxLoop syn render fuel (i + 1) prevSep inString true hl
      else if syn.multilineCommentStart.length > 0 && syn.multilineCommentEnd.length > 0
          && inString == 0 && !inComment
          && syn.multilineCommentStart.isPrefixOf (render.drop i) then
        updateSyntaxLoop syn render fuel (i + syn.multilineCommentStart.length) prevSep
          inString true (hlSetRange hl i syn.multilineCommentStart.length HL_MLCOMMENT)
      else if syn.flags &&& HL_HIGHLIGHT_STRINGS != 0 && inString != 0 then
        let hl := hl.set i HL_STRING
        if c == 92 && i + 1 < render.length then
          updateSyntaxLoop syn render fuel (i + 2) prevSep inString inComment
            (hl.set (i + 1) HL_STRING)
        else
          let inString := if c == inString then 0 else inString
          updateSyntaxLoop syn render fuel (i + 1) true inString inComment hl
      else if syn.flags &&& HL_HIGHLIGHT_STRINGS != 0 && inString == 0
          && (c == 34 || c == 39) then
        updateSyntaxLoop syn render fuel (i + 1) prevSep c inComment (hl.set i HL_STRING)
      else if syn.flags &&& HL_HIGHLIGHT_NUMBERS != 0
          && ((isDigit c && (prevSep || prevHl == HL_NUMBER))
              || (c == 46 && prevHl == HL_NUMBER)) then
        updateSyntaxLoop syn render fuel (i + 1) false inString inComment (hl.set i HL_NUMBER)
      else if prevSep then
        updateSyntaxLoop syn render fuel (i + 1) false inString inComment
          (keywordScan syn.keywords render i hl)
      else
        updateSyntaxLoop syn render fuel (i + 1) (isSeparator c) inString inComment hl
    else (hl, inComment)

/-- Per-row `UpdateSyntax`: `hl := make([]int, len(render))`; with no active
syntax it returns immediately (so `hlOpenComment` keeps its old value and no
cascade is signalled); otherwise run the loop with `prevSep = true`,
`inString = 0`, `inComment = prevOpen`.  The second component is the `changed`
flag (`hlOpenComment` flipped). -/
def rowUpdateSyntax (syn : Option EditorSyntax) (prevOpen : Bool) (r : EditorRow) :
    EditorRow × Bool :=
  match syn with
  | none => ({ r with hl := List.replicate r.render.length HL_NORMAL }, false)
  | some s =>
    let res := updateSyntaxLoop s r.render r.render.length 0 true 0 prevOpen
      (List.replicate r.render.length HL_NORMAL)
    ({ r with hl := res.1, hlOpenComment := res.2 }, r.hlOpenComment != res.2)

/-- Editor-level cascade of `UpdateSyntax`: re-highlight row `idx` (reading
`inComment` from row `idx - 1`), and when its `hlOpenComment` changed and
`idx + 1 < totalRows`, recurse into the next row.  `idx` increases every step,
so `row.length` fuel is never exhausted. -/
def prevOpenAt (e : Editor) : Nat → Bool
  | 0 => false
  | n + 1 =>
    match e.row.get? n with
    | some pr => pr.hlOpenComment
    | none => false

def updateSyntaxFromFuel : Nat → Editor → Nat → Editor
  | 0, e, _ => e
  | fuel + 1, e, idx =>
    if idx < e.row.length then
      match e.row.get? idx with
      | none => e
      | some r =>
        let rc := rowUpdateSyntax e.synt (prevOpenAt e idx) r
        let e' := { e with row := e.row.set idx rc.1 }
        if rc.2 && decide ((idx : Int) + 1 < e.totalRows) then
          updateSyntaxFromFuel fuel e' (idx + 1)
        else e'
    else e

def Editor.updateSyntaxFrom (e : Editor) (idx : Nat) : Editor :=
  updateSyntaxFromFuel e.row.length e idx

/-- `(row *editorRow) Update`: regenerate `render` from `chars`, then run
`UpdateSyntax` on the row (with its cascade). -/
def Editor.updateRowAt (e : Editor) (idx : Nat) : Editor :=
  match e.row.get? idx with
  | none => e
  | some r =>
    let e' := { e with row := e.row.set idx { r with render := renderChars r.chars 0 } }
    e'.updateSyntaxFrom idx

/-! ### Editor operations -/

/-- `append(l[:n], append([]T{a}, l[n:]...)...)`. -/
def listInsertAt {α : Type} (n : Nat) (a : α) (l : List α) : List α :=
  l.take n ++ a :: l.drop n

/-- `(e *Editor) InsertRow(at, s, rowlen)`: silently a no-op outside
`[0, totalRows]`; otherwise insert a fresh row with `chars = s[:rowlen]`,
`Update` it, then `totalRows++`, `dirty++` (in that order: the cascade runs
against the old `totalRows`). -/
def Editor.insertRow (e : Editor) (atIdx : Int) (s : List Nat) (rowlen : Int) : Editor :=
  if atIdx < 0 || atIdx > e.totalRows then e
  else
    let newRow : EditorRow :=
      { chars := s.take rowlen.toNat, render := [], hl := [], hlOpenComment := false }
    let e1 := { e with row := listInsertAt atIdx.toNat newRow e.row }
    let e2 := e1.updateRowAt atIdx.toNat
    { e2 with totalRows := e2.totalRows + 1, dirty := e2.dirty + 1 }

/-- `(e *Editor) DeleteRow(at)`: no-op outside `[0, totalRows)`; otherwise
`append(e.row[:at], e.row[at+1:]...)`, `totalRows--`, `dirty++`. -/
def Editor.deleteRow (e : Editor) (atIdx : Int) : Editor :=
  if atIdx < 0 || atIdx ≥ e.totalRows then e
  else
    { e with row := e.row.take atIdx.toNat ++ e.row.drop (atIdx.toNat + 1),
             totalRows := e.totalRows - 1, dirty := e.dirty + 1 }

/-- `(row *editorRow) appendBytes(e, s)` on the row at position `idx`:
`chars = append(chars, s...)`, then `Update` and `dirty++`.  (A Go call on a
missing row would panic; no embedded caller reaches that.) -/
def Editor.rowAppendBytes (e : Editor) (idx : Nat) (s : List Nat) : Editor :=
  match e.row.get? idx with
  | none => e
  | some r =>
    let e1 := { e with row := e.row.set idx { r with chars := r.chars ++ s } }
    let e2 := e1.updateRowAt idx
    { e2 with dirty := e2.dirty + 1 }

/-- `(row *editorRow) deleteChar(e, at)` on the row at position `idx`: no-op
outside `[0, len(chars))`, else `slices.Delete(chars, at, at+1)`, `Update`,
`dirty++`. -/
def Editor.rowDeleteChar (e : Editor) (idx : Nat) (atIdx : Int) : Editor :=
  match e.row.get? idx with
  | none => e
  | some r =>
    if atIdx < 0 || atIdx ≥ (r.chars.length : Int) then e
    else
      let r' := { r with chars := r.chars.take atIdx.toNat ++ r.chars.drop (atIdx.toNat + 1) }
      let e1 := { e with row := e.row.set idx r' }
      let e2 := e1.updateRowAt idx
      { e2 with dirty := e2.dirty + 1 }

/-- `(e *Editor) InsertNewline`: at column 0 insert an empty row before the
cursor row; otherwise move `chars[cx:]` into a fresh row below and truncate
the cursor row to `chars[:cx]`; finally `cy++`, `cx = 0`. -/
def Editor.insertNewline (e : Editor) : Editor :=
  let e1 :=
    if e.cx == 0 then e.insertRow e.cy [] 0
    else
      match e.row.get? e.cy.toNat with
      | none => e
      | some r =>
        let remaining := r.chars.drop e.cx.toNat
        let ea := e.insertRow (e.cy + 1) remaining ((r.chars.length : Int) - e.cx)
        match ea.row.get? ea.cy.toNat with
        | none => ea
        | some r2 =>
          let eb := { ea with
            row := ea.row.set ea.cy.toNat { r2 with chars := r2.chars.take ea.cx.toNat } }
          eb.updateRowAt eb.cy.toNat
  { e1 with cy := e1.cy + 1, cx := 0 }

/-- `(e *Editor) DeleteChar`: no-op on the virtual line past the last row and
at the very start of the buffer; with `cx > 0` delete the character left of
the cursor; at column 0 append the row to its predecessor, delete it, and move
the cursor up. -/
def Editor.deleteChar (e : Editor) : Editor :=
  if e.cy == e.totalRows then e
  else if e.cx == 0 && e.cy == 0 then e
  else
    match e.row.get? e.cy.toNat with
    | none => e
    | some r =>
      if e.cx > 0 then
        let e1 := e.rowDeleteChar e.cy.toNat (e.cx - 1)
        { e1 with cx := e1.cx - 1 }
      else
        match e.row.get? (e.cy - 1).toNat with
        | none => e
        | some pr =>
          let e1 := { e with cx := (pr.chars.length : Int) }
          let e2 := e1.rowAppendBytes (e1.cy - 1).toNat r.chars
          let e3 := e2.deleteRow e2.cy
          { e3 with cy := e3.cy - 1 }

/-! ### Find -/

/-- `copy(dst, src)`: overwrite the first `min(len dst, len src)` entries of
`dst` with `src`, keeping the rest of `dst`. -/
def goCopy (dst src : List Int) : List Int :=
  src.take dst.length ++ dst.drop src.length

/-- `bytes.Index(s, sub)`: index of the first occurrence of `sub` in `s`, or
`-1`. -/
def bytesIndex (s sub : List Nat) : Int :=
  if sub.isPrefixOf s then 0
  else
    match s with
    | [] => -1
    | _ :: rest =>
      let r := bytesIndex rest sub
      if r < 0 then -1 else r + 1

/-- The package-level find state (`lastMatch`, `direction`, `savedHlLine`,
`savedHl`). -/
structure FindState where
  lastMatch : Int
  direction : Int
  savedHlLine : Int
  savedHl : Option (List Int)
deriving DecidableEq

/-- `for range e.totalRows` scan of `FindCallback`: step `current` by
`direction`, wrap at the ends, and on the first row whose `render` contains
`query` set `lastMatch`/cursor, save that row's `hl` aside and paint the match
`HL_MATCH`. -/
def findLoop (e : Editor) (st : FindState) (query : List Nat) :
    Nat → Int → Editor × FindState
  | 0, _ => (e, st)
  | n + 1, current =>
    let current := current + st.direction
    let current :=
      if current == -1 then e.totalRows - 1
      else if current == e.totalRows then 0 else current
    match e.row.get? current.toNat with
    | none => (e, st)
    | some r =>
      let m := bytesIndex r.render query
      if m != -1 then
        let st' := { st with lastMatch := current, savedHlLine := current,
                             savedHl := some r.hl }
        let r' := { r with hl := hlSetRange r.hl m.toNat query.length HL_MATCH }
        let e' := { e with cy := current, cx := (r.rxToCx m : Int),
                           rowOffset := e.totalRows,
                           row := e.row.set current.toNat r' }
        (e', st')
      else findLoop e st query n current

/-- Restore step at the top of `FindCallback`: `copy` the saved highlights
back over the saved line's `hl`. -/
def restoreSavedHl (e : Editor) (st : FindState) : Editor :=
  match st.savedHl with
  | some saved =>
    match e.row.get? st.savedHlLine.toNat with
    | some r =>
      let r' := { r with hl := goCopy r.hl saved }
      { e with row := e.row.set st.savedHlLine.toNat r' }
    | none => e
  | none => e

/-- `(e *Editor) FindCallback(query, key)`: restore the previously saved row
highlights, dispatch on the key (Enter/Esc end the search; arrows set the
direction; anything else restarts), then scan at most `totalRows` rows. -/
def findCallback (e : Editor) (st : FindState) (query : List Nat) (key : Int) :
    Editor × FindState :=
  let e := restoreSavedHl e st
  let st := { st with savedHl := none }
  if key == 13 || key == 27 then
    (e, { st with lastMatch := -1, direction := 1 })
  else
    let st :=
      if key == ARROW_RIGHT || key == ARROW_DOWN then { st with direction := 1 }
      else if key == ARROW_LEFT || key == ARROW_UP then { st with direction := -1 }
      else { st with lastMatch := -1, direction := 1 }
    let st := if st.lastMatch == -1 then { st with direction := 1 } else st
    findLoop e st query e.totalRows.toNat st.lastMatch

/-! ### Quit-confirmation state machine (`ProcessKeypress`) -/

/-- The quit discipline of `ProcessKeypress`, as a function of `e.dirty`, the
package-level `quitTimes`, and the key.  The Ctrl-Q branch with unsaved
changes and a positive countdown warns, decrements and returns early (skipping
the reset at the bottom of the function); otherwise Ctrl-Q exits
(`os.Exit(0)`, modelled as `none`).  Every other branch of the switch falls
through to `quitTimes = QUIT_TIMES`; the editing work those branches do is
irrelevant to (and does not touch) the countdown. -/
def processKeyQuitTimes (dirty quitTimes key : Int) : Option Int :=
  if key == withControlKey 113 then
    if dirty > 0 && quitTimes > 0 then some (quitTimes - 1) else none
  else some QUIT_TIMES

/-- Feed a list of keys through the quit discipline with a fixed `dirty`
(consecutive quit requests leave `dirty` untouched).  `none` means the session
terminated. -/
def runKeys (dirty : Int) : Int → List Int → Option Int
  | qt, [] => some qt
  | qt, k :: ks =>
    match processKeyQuitTimes dirty qt k with
    | none => none
    | some qt' => runKeys dirty qt' ks

/-! ### Standalone variant (`main.go`): `editorUpdateSyntax` -/

/-- `editorSyntax` of `main.go`: flat keyword list, a trailing `|` marking a
type keyword. -/
structure MainSyntax where
  keywords : List (List Nat)
  singlelineCommentStart : List Nat
  multilineCommentStart : List Nat
  multilineCommentEnd : List Nat
  flags : Nat
deriving DecidableEq

/-- Keyword scan of `main.go`: strip a trailing `|` (marking `HL_KEYWORD2`),
and require the keyword bytes at `i` *and* end-of-row or a separator right
after; the first hit wins.  Returns the matched length and the `KEYWORD2`
flag. -/
def kwMatch (render : List Nat) (i : Nat) : List (List Nat) → Option (Nat × Bool)
  | [] => none
  | kw :: rest =>
    let isKw2 := kw.length > 0 && kw.getLast? == some 124
    let klen := if isKw2 then kw.length - 1 else kw.length
    if klen > 0 && i + klen ≤ render.length
        && (render.drop i).take klen == kw.take klen
        && (i + klen ≥ render.length || isSeparator (render.getD (i + klen) 0)) then
      some (klen, isKw2)
    else kwMatch render i rest

/-- Main loop of `editorUpdateSyntax` (`main.go` variant): identical to the
module variant except that there is no `^`-control branch and the keyword pass
requires a separator (or end of row) after the keyword, skips past the
keyword, and stops at the first hit. -/
def editorUpdateSyntaxLoop (syn : MainSyntax) (render : List Nat) :
    Nat → Nat → Bool → Nat → Bool → List Int → List Int × Bool
  | 0, _, _, _, inComment, hl => (hl, inComment)
  | fuel + 1, i, prevSep, inString, inComment, hl =>
    if i < render.length then
      let c := render.getD i 0
      let prevHl := if i > 0 then hl.getD (i - 1) HL_NORMAL else HL_NORMAL
      if syn.singlelineCommentStart.length > 0 && inString == 0 && !inComment
          && syn.singlelineCommentStart.isPrefixOf (render.drop i) then
        (hlFillFrom hl i HL_COMMENT, inComment)
      else if syn.multilineCommentStart.length > 0 && syn.multilineCommentEnd.length > 0
          && inString == 0 && inComment then
        let hl := hl.set i HL_MLCOMMENT
        if syn.multilineCommentEnd.isPrefixOf (render.drop i) then
          editorUpdateSyntaxLoop syn render fuel (i + syn.multilineCommentEnd.length)
            prevSep inString false
            (hlSetRange hl i syn.multilineCommentEnd.length HL_MLCOMMENT)
        else
          editorUpdateSyntaxLoop syn render fuel (i + 1) prevSep inString true hl
      else if syn.multilineCommentStart.length > 0 && syn.multilineCommentEnd.length > 0
          && inString == 0 && !inComment
          && syn.multilineCommentStart.isPrefixOf (render.drop i) then
        editorUpdateSyntaxLoop syn render fuel (i + syn.multilineCommentStart.length)
          prevSep inString true
          (hlSetRange hl i syn.multilineCommentStart.length HL_MLCOMMENT)
      else if syn.flags &&& HL_HIGHLIGHT_STRINGS != 0 && inString != 0 then
        let hl := hl.set i HL_STRING
        if c == 92 && i + 1 < render.length then
          editorUpdateSyntaxLoop syn render fuel (i + 2) prevSep inString inComment
            (hl.set (i + 1) HL_STRING)
        else
          let inString := if c == inString then 0 else inString
          editorUpdateSyntaxLoop syn render fuel (i + 1) true inString inComment hl
      else if syn.flags &&& HL_HIGHLIGHT_STRINGS != 0 && inString == 0
          && (c == 34 || c == 39) then
        editorUpdateSyntaxLoop syn render fuel (i + 1) prevSep c inComment
          (hl.set i HL_STRING)
      else if syn.flags &&& HL_HIGHLIGHT_NUMBERS != 0
          && ((isDigit c && (prevSep || prevHl == HL_NUMBER))
              || (c == 46 && prevHl == HL_NUMBER)) then
        editorUpdateSyntaxLoop syn render fuel (i + 1) false inString inComment
          (hl.set i HL_NUMBER)
      else
        match (if prevSep then kwMatch render i syn.keywords else none) with
        | some kb =>
          editorUpdateSyntaxLoop syn render fuel (i + kb.1) false inString inComment
            (hlSetRange hl i kb.1 (if kb.2 then HL_KEYWORD2 else HL_KEYWORD1))
        | none =>
          editorUpdateSyntaxLoop syn render fuel (i + 1) (isSeparator c) inString inComment hl
    else (hl, inComment)

/-- Per-row `editorUpdateSyntax` for a single row with no open comment carried
in from above (`row.idx == 0` case): `hl` starts all `HL_NORMAL`, then the
loop runs with `prevSep = true`, `inString = 0`, `inComment = prevOpen`. -/
def editorUpdateSyntaxRow (syn : MainSyntax) (prevOpen : Bool) (render : List Nat) :
    List Int × Bool :=
  editorUpdateSyntaxLoop syn render render.length 0 true 0 prevOpen
    (List.replicate render.length HL_NORMAL)

/-! ### Shared lemmas: highlight buffers keep their length -/

theorem hlSetRange_length (v : Int) :
    ∀ (count i : Nat) (hl : List Int), (hlSetRange hl i count v).length = hl.length
  | 0, _, _ => rfl
  | n + 1, i, hl => by
    simp [hlSetRange, hlSetRange_length v n (i + 1) (hl.set i v), List.length_set]

theorem hlFillFrom_length (hl : List Int) (i : Nat) (v : Int) :
    (hlFillFrom hl i v).length = hl.length :=
  hlSetRange_length v _ _ _

theorem controlSeqLoop_fst_length (render : List Nat) :
    ∀ (fuel j : Nat) (hl : List Int),
      ((controlSeqLoop render fuel j hl).1).length = hl.length
  | 0, _, _ => rfl
  | fuel + 1, j, hl => by
    simp only [controlSeqLoop]
    repeat' split
    all_goals simp [controlSeqLoop_fst_length render fuel, List.length_set]

theorem keywordScanList_length (render : List Nat) (i : Nat) (v : Int) :
    ∀ (kws : List (List Nat)) (hl : List Int),
      (keywordScanList render i v kws hl).length = hl.length
  | [], _ => rfl
  | kw :: rest, hl => by
    simp only [keywordScanList]
    rw [keywordScanList_length render i v rest]
    split <;> simp [hlSetRange_length]

theorem keywordScanAux_length (render : List Nat) (i : Nat) :
    ∀ (j : Nat) (kws : List (List (List Nat))) (hl : List Int),
      (keywordScanAux render i j kws hl).length = hl.length
  | _, [], _ => rfl
  | j, sub :: rest, hl => by
    simp only [keywordScanAux]
    rw [keywordScanAux_length render i (j + 1) rest, keywordScanList_length]

theorem keywordScan_length (keywords : List (List (List Nat))) (render : List Nat)
    (i : Nat) (hl : List Int) : (keywordScan keywords render i hl).length = hl.length :=
  keywordScanAux_length render i 0 keywords hl

theorem updateSyntaxLoop_fst_length (syn : EditorSyntax) (render : List Nat) :
    ∀ (fuel i : Nat) (prevSep : Bool) (inString : Nat) (inComment : Bool) (hl : List Int),
      ((updateSyntaxLoop syn render fuel i prevSep inString inComment hl).1).length
        = hl.length
  | 0, _, _, _, _, _ => rfl
  | fuel + 1, i, prevSep, inString, inComment, hl => by
    simp only [updateSyntaxLoop]
    repeat' split
    all_goals
      simp [updateSyntaxLoop_fst_length syn render fuel, List.length_set,
        hlSetRange_length, hlFillFrom_length, controlSeqLoop_fst_length,
        keywordScan_length]

theorem goCopy_length (dst src : List Int) : (goCopy dst src).length = dst.length := by
  simp [goCopy]
  omega

/-- The invariant of claim C8: every row's highlight sequence is exactly as
long as its rendered sequence. -/
def rowsOK (e : Editor) : Prop := ∀ r ∈ e.row, r.hl.length = r.render.length

instance (e : Editor) : Decidable (rowsOK e) := by
  unfold rowsOK; infer_instance

theorem rowUpdateSyntax_chars (syn : Option EditorSyntax) (prevOpen : Bool)
    (r : EditorRow) : ((rowUpdateSyntax syn prevOpen r).1).chars = r.chars := by
  cases syn <;> rfl

theorem rowUpdateSyntax_render (syn : Option EditorSyntax) (prevOpen : Bool)
    (r : EditorRow) : ((rowUpdateSyntax syn prevOpen r).1).render = r.render := by
  cases syn <;> rfl

theorem rowUpdateSyntax_hl_length (syn : Option EditorSyntax) (prevOpen : Bool)
    (r : EditorRow) : ((rowUpdateSyntax syn prevOpen r).1).hl.length = r.render.length := by
  cases syn with
  | none => simp [rowUpdateSyntax]
  | some s => simp [rowUpdateSyntax, updateSyntaxLoop_fst_length]

/-- Rows strictly below the cascade start are never rewritten. -/
theorem updateSyntaxFromFuel_get?_lt :
    ∀ (fuel : Nat) (e : Editor) (idx k : Nat), k < idx →
      (updateSyntaxFromFuel fuel e idx).row.get? k = e.row.get? k
  | 0, _, _, _, _ => rfl
  | fuel + 1, e, idx, k, hk => by
    simp only [updateSyntaxFromFuel]
    split
    · split
      · rfl
      · split
        · rw [updateSyntaxFromFuel_get?_lt fuel _ (idx + 1) k (by omega)]
          simp [List.get?_eq_getElem?, List.getElem?_set_ne (by omega : idx ≠ k)]
        · simp [List.get?_eq_getElem?, List.getElem?_set_ne (by omega : idx ≠ k)]
    · rfl

/-- Every row of the cascade's result is either the input row at the same
position or a freshly highlighted row whose `hl` matches its `render` in
length. -/
theorem updateSyntaxFromFuel_get?_cases :
    ∀ (fuel : Nat) (e : Editor) (idx k : Nat) (r' : EditorRow),
      (updateSyntaxFromFuel fuel e idx).row.get? k = some r' →
      e.row.get? k = some r' ∨ r'.hl.length = r'.render.length
  | 0, _, _, _, _, h => Or.inl h
  | fuel + 1, e, idx, k, r', h => by
    simp only [updateSyntaxFromFuel] at h
    split at h
    · split at h
      · exact Or.inl h
      · rename_i r hr
        split at h
        · rcases updateSyntaxFromFuel_get?_cases fuel _ (idx + 1) k r' h with h' | h'
          · by_cases hik : idx = k
            · subst hik
              rw [List.get?_eq_getElem?,
                List.getElem?_set_self (by simpa using ‹idx < e.row.length›)] at h'
              cases h'
              exact Or.inr (by simp [rowUpdateSyntax_hl_length, rowUpdateSyntax_render])
            · rw [List.get?_eq_getElem?, List.getElem?_set_ne hik,
                ← List.get?_eq_getElem?] at h'
              exact Or.inl h'
          · exact Or.inr h'
        · by_cases hik : idx = k
          · subst hik
            rw [List.get?_eq_getElem?,
              List.getElem?_set_self (by simpa using ‹idx < e.row.length›)] at h
            cases h
            exact Or.inr (by simp [rowUpdateSyntax_hl_length, rowUpdateSyntax_render])
          · rw [List.get?_eq_getElem?, List.getElem?_set_ne hik,
              ← List.get?_eq_getElem?] at h
            exact Or.inl h
    · exact Or.inl h

/-- The row the cascade starts at is always rewritten (given fuel and range),
and comes out with matching `hl`/`render` lengths. -/
theorem updateSyntaxFromFuel_get?_start (fuel : Nat) (e : Editor) (idx : Nat)
    (hfuel : 0 < fuel) (hidx : idx < e.row.length) :
    ∃ r', (updateSyntaxFromFuel fuel e idx).row.get? idx = some r' ∧
      r'.hl.length = r'.render.length := by
  obtain ⟨f, rfl⟩ : ∃ f, fuel = f + 1 := ⟨fuel - 1, by omega⟩
  have hr : e.row.get? idx = some (e.row.get ⟨idx, hidx⟩) := List.get?_eq_get hidx
  simp only [updateSyntaxFromFuel, if_pos hidx, hr]
  set r := e.row.get ⟨idx, hidx⟩ with hrdef
  split
  · rw [updateSyntaxFromFuel_get?_lt f _ (idx + 1) idx (by omega)]
    refine ⟨(rowUpdateSyntax e.synt (prevOpenAt e idx) r).1, ?_, ?_⟩
    · simp [List.get?_eq_getElem?, List.getElem?_set_self (by simpa using hidx)]
    · simp [rowUpdateSyntax_hl_length, rowUpdateSyntax_render]
  · refine ⟨(rowUpdateSyntax e.synt (prevOpenAt e idx) r).1, ?_, ?_⟩
    · simp [List.get?_eq_getElem?, List.getElem?_set_self (by simpa using hidx)]
    · simp [rowUpdateSyntax_hl_length, rowUpdateSyntax_render]

theorem rowsOK_updateSyntaxFromFuel (fuel : Nat) (e : Editor) (idx : Nat)
    (h : rowsOK e) : rowsOK (updateSyntaxFromFuel fuel e idx) := by
  intro r' hr'
  obtain ⟨n, hn⟩ := List.mem_iff_get?.mp hr'
  rcases updateSyntaxFromFuel_get?_cases fuel e idx n r' hn with h1 | h1
  · exact h r' (List.get?_mem h1)
  · exact h1

theorem rowsOK_updateSyntaxFrom (e : Editor) (idx : Nat) (h : rowsOK e) :
    rowsOK (e.updateSyntaxFrom idx) :=
  rowsOK_updateSyntaxFromFuel _ _ _ h

theorem rowsOK_updateRowAt (e : Editor) (idx : Nat) (h : rowsOK e) :
    rowsOK (e.updateRowAt idx) := by
  unfold Editor.updateRowAt
  split
  · exact h
  rename_i r hr
  have hlen : idx < e.row.length := (List.get?_eq_some.mp hr).choose
  set e' : Editor :=
    { e with row := e.row.set idx { r with render := renderChars r.chars 0 } } with he'
  intro r' hr'
  obtain ⟨n, hn⟩ := List.mem_iff_get?.mp hr'
  change (e'.updateSyntaxFrom idx).row.get? n = some r' at hn
  by_cases hni : n = idx
  · subst hni
    obtain ⟨r'', h1, h2⟩ := updateSyntaxFromFuel_get?_start e'.row.length e' n
      (by simp [he', List.length_set]; omega) (by simpa [he', List.length_set] using hlen)
    rw [show e'.updateSyntaxFrom n = updateSyntaxFromFuel e'.row.length e' n from rfl] at hn
    rw [h1] at hn
    cases hn
    exact h2
  · rcases updateSyntaxFromFuel_get?_cases e'.row.length e' idx n r' hn with h1 | h1
    · rw [List.get?_eq_getElem?] at h1
      simp only [he'] at h1
      rw [List.getElem?_set_ne (fun hh => hni hh.symm)] at h1
      exact h r' (List.get?_mem (by rw [List.get?_eq_getElem?]; exact h1))
    · exact h1

theorem rowsOK_set (e : Editor) (i : Nat) (r' : EditorRow) (h : rowsOK e)
    (h' : r'.hl.length = r'.render.length) :
    rowsOK { e with row := e.row.set i r' } := by
  intro a ha
  rcases List.mem_or_eq_of_mem_set ha with h1 | h1
  · exact h a h1
  · subst h1; exact h'

theorem rowsOK_findLoop (e : Editor) (st : FindState) (q : List Nat) :
    ∀ (fuel : Nat) (cur : Int), rowsOK e → rowsOK (findLoop e st q fuel cur).1
  | 0, _, h => h
  | n + 1, cur, h => by
    simp only [findLoop]
    split
    · exact h
    rename_i cur' r hr
    split
    · refine rowsOK_set e _ _ h ?_
      simp [hlSetRange_length]
      exact h r (List.get?_mem hr)
    · exact rowsOK_findLoop e st q n _ h

theorem rowsOK_restoreSavedHl (e : Editor) (st : FindState) (h : rowsOK e) :
    rowsOK (restoreSavedHl e st) := by
  unfold restoreSavedHl
  split
  · split
    · rename_i saved r hr
      refine rowsOK_set e _ _ h ?_
      simp [goCopy_length]
      exact h r (List.get?_mem hr)
    · exact h
  · exact h

theorem rowsOK_findCallback (e : Editor) (st : FindState) (q : List Nat) (key : Int)
    (h : rowsOK e) : rowsOK (findCallback e st q key).1 := by
  unfold findCallback
  dsimp only
  split
  · exact rowsOK_restoreSavedHl e st h
  · exact rowsOK_findLoop _ _ _ _ _ (rowsOK_restoreSavedHl e st h)

/-! ### Frame lemmas: the highlight cascade touches only `row`, and never a
row's `chars` -/

theorem set_get?_self {α : Type} :
    ∀ (l : List α) (i : Nat) (a : α), l.get? i = some a → l.set i a = l
  | [], _, _, h => by cases h
  | x :: xs, 0, a, h => by cases h; rfl
  | x :: xs, i + 1, a, h => by
    simp only [List.set]
    rw [set_get?_self xs i a h]

theorem updateSyntaxFromFuel_frame :
    ∀ (fuel : Nat) (e : Editor) (idx : Nat),
      updateSyntaxFromFuel fuel e idx
        = { e with row := (updateSyntaxFromFuel fuel e idx).row }
  | 0, _, _ => rfl
  | fuel + 1, e, idx => by
    simp only [updateSyntaxFromFuel]
    split
    · split
      · rfl
      · split
        · rw [updateSyntaxFromFuel_frame fuel _ (idx + 1)]
        · rfl
    · rfl

theorem updateSyntaxFromFuel_map_chars :
    ∀ (fuel : Nat) (e : Editor) (idx : Nat),
      (updateSyntaxFromFuel fuel e idx).row.map (·.chars) = e.row.map (·.chars)
  | 0, _, _ => rfl
  | fuel + 1, e, idx => by
    simp only [updateSyntaxFromFuel]
    split
    · split
      · rfl
      · rename_i r hr
        have hset : (e.row.set idx (rowUpdateSyntax e.synt (prevOpenAt e idx) r).1).map
            (·.chars) = e.row.map (·.chars) := by
          rw [List.map_set, rowUpdateSyntax_chars]
          exact set_get?_self _ _ _ (by rw [List.get?_map, hr]; rfl)
        split
        · rw [updateSyntaxFromFuel_map_chars fuel _ (idx + 1)]
          exact hset
        · exact hset
    · rfl

theorem updateRowAt_frame (e : Editor) (idx : Nat) :
    e.updateRowAt idx = { e with row := (e.updateRowAt idx).row } := by
  unfold Editor.updateRowAt
  split
  · rfl
  · exact updateSyntaxFromFuel_frame _ _ _

theorem updateRowAt_map_chars (e : Editor) (idx : Nat) :
    (e.updateRowAt idx).row.map (·.chars) = e.row.map (·.chars) := by
  unfold Editor.updateRowAt
  split
  · rfl
  rename_i r hr
  rw [show ∀ e' : Editor, e'.updateSyntaxFrom idx = updateSyntaxFromFuel e'.row.length e' idx
      from fun _ => rfl]
  rw [updateSyntaxFromFuel_map_chars]
  simp only [List.map_set]
  exact set_get?_self _ _ _ (by rw [List.get?_map, hr]; rfl)

theorem updateRowAt_totalRows (e : Editor) (idx : Nat) :
    (e.updateRowAt idx).totalRows = e.totalRows := by
  conv_lhs => rw [updateRowAt_frame]

theorem updateRowAt_cx (e : Editor) (idx : Nat) : (e.updateRowAt idx).cx = e.cx := by
  conv_lhs => rw [updateRowAt_frame]

theorem updateRowAt_cy (e : Editor) (idx : Nat) : (e.updateRowAt idx).cy = e.cy := by
  conv_lhs => rw [updateRowAt_frame]

theorem updateRowAt_dirty (e : Editor) (idx : Nat) : (e.updateRowAt idx).dirty = e.dirty := by
  conv_lhs => rw [updateRowAt_frame]

theorem updateRowAt_synt (e : Editor) (idx : Nat) : (e.updateRowAt idx).synt = e.synt := by
  conv_lhs => rw [updateRowAt_frame]

/-- Recover a row (with known `chars`) from a known `chars`-image of the row
list. -/
theorem get?_chars_of_map {rows : List EditorRow} {L : List (List Nat)}
    (h : rows.map (·.chars) = L) (k : Nat) {a : List Nat} (ha : L.get? k = some a) :
    ∃ r, rows.get? k = some r ∧ r.chars = a := by
  have hm := List.get?_map (·.chars) rows k
  rw [h, ha] at hm
  rcases hq : rows.get? k with _ | r
  · rw [hq] at hm; cases hm
  · rw [hq] at hm
    simp only [Option.map_some'] at hm
    exact ⟨r, rfl, by injection hm with h'; exact h'.symm⟩

/-- `DeleteChar` at column 0 of row 1 in a two-row buffer joins the two rows.
-/
theorem deleteChar_join (e : Editor) (a b : List Nat)
    (hmap : e.row.map (·.chars) = [a, b]) (hcy : e.cy = 1) (hcx : e.cx = 0)
    (ht : e.totalRows = 2) :
    (e.deleteChar).row.map (·.chars) = [a ++ b] ∧ (e.deleteChar).totalRows = 1 := by
  obtain ⟨r, hr, hrchars⟩ := get?_chars_of_map hmap 1 (a := b) rfl
  obtain ⟨pr, hpr, hprchars⟩ := get?_chars_of_map hmap 0 (a := a) rfl
  unfold Editor.deleteChar
  rw [if_neg (by rw [hcy, ht]; decide)]
  rw [if_neg (by rw [hcx, hcy]; decide)]
  rw [show e.cy.toNat = 1 from by rw [hcy]; rfl, hr]
  dsimp only
  rw [if_neg (by rw [hcx]; decide)]
  rw [show (e.cy - 1).toNat = 0 from by rw [hcy]; rfl, hpr]
  dsimp only
  set e1 : Editor := { e with cx := (pr.chars.length : Int) } with he1
  have h1map : e1.row.map (·.chars) = [a, b] := hmap
  -- rowAppendBytes on row 0
  have happ : (e1.rowAppendBytes 0 r.chars).row.map (·.chars) = [a ++ b, b]
      ∧ (e1.rowAppendBytes 0 r.chars).cy = e.cy
      ∧ (e1.rowAppendBytes 0 r.chars).totalRows = e.totalRows := by
    unfold Editor.rowAppendBytes
    rw [show e1.row.get? 0 = some pr from hpr]
    refine ⟨?_, ?_, ?_⟩
    · rw [updateRowAt_map_chars]
      simp only [List.map_set, h1map, hprchars, hrchars]
      rfl
    · rw [updateRowAt_cy]
    · rw [updateRowAt_totalRows]
  set e2 := e1.rowAppendBytes 0 r.chars with he2
  obtain ⟨h2map, h2cy, h2t⟩ := happ
  -- deleteRow on row cy = 1
  unfold Editor.deleteRow
  rw [if_neg (by rw [h2cy, hcy, h2t, ht]; decide)]
  constructor
  · rw [show e2.cy.toNat = 1 from by rw [h2cy, hcy]; rfl]
    rw [List.map_append, List.map_take, List.map_drop, h2map]
    rfl
  · rw [h2t, ht]
    rfl

/-- In-range `InsertRow`: the `chars` image of the row list gains the new
content at the insertion point, `totalRows` grows by one, and the cursor is
untouched. -/
theorem insertRow_facts (e : Editor) (atI : Int) (s' : List Nat) (rl : Int)
    (h1 : 0 ≤ atI) (h2 : atI ≤ e.totalRows) :
    (e.insertRow atI s' rl).row.map (·.chars)
        = listInsertAt atI.toNat (s'.take rl.toNat) (e.row.map (·.chars))
      ∧ (e.insertRow atI s' rl).totalRows = e.totalRows + 1
      ∧ (e.insertRow atI s' rl).cy = e.cy
      ∧ (e.insertRow atI s' rl).cx = e.cx
      ∧ (e.insertRow atI s' rl).dirty = e.dirty + 1 := by
  unfold Editor.insertRow
  rw [if_neg (by simp only [Bool.or_eq_true, decide_eq_true_eq, not_or]; omega)]
  dsimp only
  refine ⟨?_, ?_, ?_, ?_, ?_⟩
  · rw [updateRowAt_map_chars]
    simp only [listInsertAt, List.map_append, List.map_take, List.map_drop, List.map_cons]
  · rw [updateRowAt_totalRows]
  · rw [updateRowAt_cy]
  · rw [updateRowAt_cx]
  · rw [updateRowAt_dirty]

/-- The initial one-row buffer of claim C6, cursor at column `i` of row 0. -/
def singleRow (s : List Nat) : EditorRow :=
  { chars := s, render := renderChars s 0,
    hl := List.replicate (renderChars s 0).length HL_NORMAL, hlOpenComment := false }

def singleRowEditor (s : List Nat) (i : Nat) : Editor :=
  { cx := (i : Int), cy := 0, rx := 0, rowOffset := 0, colOffset := 0,
    screenRows := 0, screenCols := 0, totalRows := 1,
    row := [singleRow s], dirty := 0, synt := none, mode := 0 }

/-- `InsertNewline` on the one-row buffer splits row 0 at the cursor. -/
theorem insertNewline_single (s : List Nat) (i : Nat) (hi : i ≤ s.length) :
    ((singleRowEditor s i).insertNewline).row.map (·.chars) = [s.take i, s.drop i]
      ∧ ((singleRowEditor s i).insertNewline).cy = 1
      ∧ ((singleRowEditor s i).insertNewline).cx = 0
      ∧ ((singleRowEditor s i).insertNewline).totalRows = 2 := by
  unfold Editor.insertNewline
  dsimp only
  by_cases h0 : i = 0
  · subst h0
    split
    · obtain ⟨hm, ht, hcy, hcx, hd⟩ :=
        insertRow_facts (singleRowEditor s 0) (singleRowEditor s 0).cy [] 0
          (le_refl 0) (show (0 : Int) ≤ 1 by norm_num)
      refine ⟨?_, ?_, rfl, ?_⟩
      · rw [hm]; rfl
      · rw [hcy]; rfl
      · rw [ht]; rfl
    · rename_i h
      exact absurd rfl h
  · split
    · rename_i h
      exact absurd h (by simp only [beq_iff_eq]; exact fun hh => h0 (by exact_mod_cast (show ((i : Nat) : Int) = 0 from hh)))
    rw [show (singleRowEditor s i).row.get? (singleRowEditor s i).cy.toNat
        = some (singleRow s) from rfl]
    dsimp only
    obtain ⟨hm, ht, hcy, hcx, hd⟩ :=
      insertRow_facts (singleRowEditor s i) ((singleRowEditor s i).cy + 1)
        ((singleRow s).chars.drop (singleRowEditor s i).cx.toNat)
        (((singleRow s).chars.length : Int) - (singleRowEditor s i).cx)
        (show (0 : Int) ≤ 0 + 1 by norm_num) (show (0 : Int) + 1 ≤ 1 by norm_num)
    set ea := (singleRowEditor s i).insertRow ((singleRowEditor s i).cy + 1)
      ((singleRow s).chars.drop (singleRowEditor s i).cx.toNat)
      (((singleRow s).chars.length : Int) - (singleRowEditor s i).cx) with hea
    have hmap2 : ea.row.map (·.chars) = [s, s.drop i] := by
      rw [hm]
      show listInsertAt 1 ((s.drop i).take (((s.length : Int) - (i : Int)).toNat))
        (List.map (·.chars) [singleRow s]) = [s, s.drop i]
      rw [show ((s.length : Int) - (i : Int)).toNat = s.length - i from by omega]
      rw [List.take_of_length_le (by simp)]
      rfl
    obtain ⟨r2, hr2, hr2chars⟩ := get?_chars_of_map hmap2 0 (a := s) rfl
    rw [show ea.cy.toNat = 0 from by rw [hcy]; rfl] at *
    rw [hr2]
    dsimp only
    have hcxT : ea.cx.toNat = i := by rw [hcx]; exact Int.toNat_natCast i
    rw [hcxT]
    set eb : Editor := { ea with row := ea.row.set 0 { r2 with chars := r2.chars.take i } }
      with heb
    have hmap3 : eb.row.map (·.chars) = [s.take i, s.drop i] := by
      rw [heb]
      show (ea.row.set 0 { r2 with chars := r2.chars.take i }).map (·.chars)
        = [s.take i, s.drop i]
      rw [List.map_set, hmap2, hr2chars]
      rfl
    refine ⟨?_, ?_, rfl, ?_⟩
    · rw [updateRowAt_map_chars]
      exact hmap3
    · rw [updateRowAt_cy]
      show ea.cy + 1 = 1
      rw [hcy]
      rfl
    · rw [updateRowAt_totalRows]
      show eb.totalRows = 2
      rw [heb]
      show ea.totalRows = 2
      rw [ht]
      rfl

/-! ### Concrete inputs for the claims -/

/-- The `go` entry of `main.go`'s `HLDB_ENTRIES` (flat keyword list, `|`
marking type keywords). -/
def goSyntaxMain : MainSyntax :=
  { keywords :=
      [chs ['b','r','e','a','k'], chs ['c','a','s','e'], chs ['c','h','a','n'],
       chs ['c','o','n','s','t'], chs ['c','o','n','t','i','n','u','e'],
       chs ['d','e','f','a','u','l','t'], chs ['d','e','f','e','r'],
       chs ['e','l','s','e'], chs ['f','a','l','l','t','h','r','o','u','g','h'],
       chs ['f','o','r'], chs ['f','u','n','c','|'], chs ['g','o'],
       chs ['g','o','t','o'], chs ['i','f'], chs ['i','m','p','o','r','t'],
       chs ['i','n','t','e','r','f','a','c','e'], chs ['m','a','p'],
       chs ['p','a','c','k','a','g','e'], chs ['r','a','n','g','e'],
       chs ['r','e','t','u','r','n'], chs ['s','e','l','e','c','t'],
       chs ['s','t','r','u','c','t'], chs ['s','w','i','t','c','h'],
       chs ['t','y','p','e'], chs ['v','a','r']],
    singlelineCommentStart := chs ['/','/'],
    multilineCommentStart := chs ['/','*'],
    multilineCommentEnd := chs ['*','/'],
    flags := HL_HIGHLIGHT_NUMBERS + HL_HIGHLIGHT_STRINGS }

/-- The `go` entry of the module's `HLDB_ENTRIES` (keyword sublists). -/
def goSyntaxEd : EditorSyntax :=
  { filetype := chs ['g','o'],
    filematch := [chs ['.','g','o'], chs ['.','m','o','d'], chs ['.','s','u','m']],
    keywords :=
      [[chs ['b','r','e','a','k'], chs ['c','a','s','e'], chs ['c','h','a','n'],
        chs ['c','o','n','s','t'], chs ['c','o','n','t','i','n','u','e'],
        chs ['d','e','f','a','u','l','t'], chs ['d','e','f','e','r'],
        chs ['e','l','s','e'], chs ['f','a','l','l','t','h','r','o','u','g','h'],
        chs ['f','o','r'], chs ['g','o'], chs ['g','o','t','o'], chs ['i','f'],
        chs ['i','m','p','o','r','t'], chs ['m','a','p'],
        chs ['p','a','c','k','a','g','e'], chs ['r','a','n','g','e'],
        chs ['r','e','t','u','r','n'], chs ['s','e','l','e','c','t'],
        chs ['s','t','r','u','c','t'], chs ['s','w','i','t','c','h'],
        chs ['t','y','p','e'], chs ['v','a','r']],
       [chs ['i','n','t','e','r','f','a','c','e'], chs ['f','u','n','c']]],
    singlelineCommentStart := chs ['/','/'],
    multilineCommentStart := chs ['/','*'],
    multilineCommentEnd := chs ['*','/'],
    flags := HL_HIGHLIGHT_NUMBERS + HL_HIGHLIGHT_STRINGS }

/-- A freshly loaded row: `render` regenerated from `chars`, `hl` still the
all-`HL_NORMAL` buffer of the right length. -/
def freshRow (s : List Nat) : EditorRow :=
  { chars := s, render := renderChars s 0,
    hl := List.replicate (renderChars s 0).length HL_NORMAL, hlOpenComment := false }

/-- A row whose highlight pass has not run yet (`hl` empty, as after
`InsertRow` builds the row with `hl: nil`). -/
def staleRow (s : List Nat) : EditorRow :=
  { chars := s, render := renderChars s 0, hl := [], hlOpenComment := false }

def baseEditor (rows : List EditorRow) (syn : Option EditorSyntax) : Editor :=
  { cx := 0, cy := 0, rx := 0, rowOffset := 0, colOffset := 0, screenRows := 0,
    screenCols := 0, totalRows := (rows.length : Int), row := rows, dirty := 0,
    synt := syn, mode := 0 }

/-- The three-row buffer of claim C4: `/* start`, `middle`, `end */ code`. -/
def bcEditor : Editor :=
  baseEditor
    [staleRow (chs ['/','*',' ','s','t','a','r','t']),
     staleRow (chs ['m','i','d','d','l','e']),
     staleRow (chs ['e','n','d',' ','*','/',' ','c','o','d','e'])]
    (some goSyntaxEd)

/-- The three-row buffer of claim C7: only row 0's render contains `foo`. -/
def findEditor : Editor :=
  baseEditor
    [freshRow (chs ['f','o','o']), freshRow (chs ['b','a','r']),
     freshRow (chs ['q','u','x'])]
    none

/-! ### The claims -/

/-- C1: under the strict (`main.go` `editorUpdateSyntax`) keyword policy — a
keyword counts only when followed by a separator or the end of the row — the
row `ifconfig` gets no Keyword tag at all (the `if` prefix of a longer
identifier is not a match), while on `if (x)` exactly the first two characters
are tagged `HL_KEYWORD1`, and the character right after them is a
separator. -/
theorem C1_keyword_separator_policy :
    (editorUpdateSyntaxRow goSyntaxMain false
        (chs ['i','f','c','o','n','f','i','g'])).1 = List.replicate 8 HL_NORMAL
    ∧ (editorUpdateSyntaxRow goSyntaxMain false (chs ['i','f',' ','(','x',')'])).1
        = [HL_KEYWORD1, HL_KEYWORD1, HL_NORMAL, HL_NORMAL, HL_NORMAL, HL_NORMAL]
    ∧ isSeparator ((chs ['i','f',' ','(','x',')']).getD 2 0) = true := by
  decide

/-- C2 counterexample: with unsaved changes and the countdown at
`QUIT_TIMES = 3`, after exactly 3 consecutive Ctrl-Q presses the session is
*still open* (the countdown has only counted 3 → 2 → 1 → 0; the quit proceeds
on the following press), contradicting the claim that 3 presses terminate. -/
theorem C2_three_quits_leave_session_open :
    runKeys 1 QUIT_TIMES
      [withControlKey 113, withControlKey 113, withControlKey 113] = some 0 := by
  decide

/-- C2 (amended): with `dirty > 0` the session terminates only on the 4th
consecutive Ctrl-Q (`113` = 'q'); after 2 presses it is open with the
countdown decremented twice (3 → 1); any non-quit key resets the countdown to
`QUIT_TIMES`; and with `dirty = 0` (after a successful save) a single Ctrl-Q
exits at once, with no decrement. -/
theorem C2_quit_countdown (dirty : Int) (hd : 0 < dirty) :
    runKeys dirty QUIT_TIMES (List.replicate 4 (withControlKey 113)) = none
    ∧ runKeys dirty QUIT_TIMES [withControlKey 113, withControlKey 113] = some 1
    ∧ (∀ k : Int, k ≠ withControlKey 113 →
        ∀ qt : Int, processKeyQuitTimes dirty qt k = some QUIT_TIMES)
    ∧ (∀ qt : Int, processKeyQuitTimes 0 qt (withControlKey 113) = none) := by
  have hq : ∀ qt : Int, 0 < qt →
      processKeyQuitTimes dirty qt (withControlKey 113) = some (qt - 1) := by
    intro qt hqt
    unfold processKeyQuitTimes
    rw [if_pos (by simp), if_pos (by simp only [Bool.and_eq_true, decide_eq_true_eq]; omega)]
  have e3 : processKeyQuitTimes dirty 3 (withControlKey 113) = some 2 := by
    rw [hq 3 (by norm_num)]; norm_num
  have e2 : processKeyQuitTimes dirty 2 (withControlKey 113) = some 1 := by
    rw [hq 2 (by norm_num)]; norm_num
  have e1 : processKeyQuitTimes dirty 1 (withControlKey 113) = some 0 := by
    rw [hq 1 (by norm_num)]; norm_num
  have e0 : processKeyQuitTimes dirty 0 (withControlKey 113) = none := by
    unfold processKeyQuitTimes
    rw [if_pos (by simp), if_neg (by simp only [Bool.and_eq_true, decide_eq_true_eq]; omega)]
  refine ⟨?_, ?_, ?_, ?_⟩
  · show runKeys dirty 3 [withControlKey 113, withControlKey 113, withControlKey 113,
      withControlKey 113] = none
    simp only [runKeys, e3, e2, e1, e0]
  · show runKeys dirty 3 [withControlKey 113, withControlKey 113] = some 1
    simp only [runKeys, e3, e2]
  · intro k hk qt
    unfold processKeyQuitTimes
    rw [if_neg (by simp only [beq_iff_eq]; exact hk)]
  · intro qt
    unfold processKeyQuitTimes
    rw [if_pos (by simp), if_neg (by simp only [Bool.and_eq_true, decide_eq_true_eq]; omega)]

/-- C2 witness: the amended countdown behaviour at `dirty = 1`. -/
theorem C2_quit_countdown_witness :
    (0 : Int) < 1
    ∧ (runKeys 1 QUIT_TIMES (List.replicate 4 (withControlKey 113)) = none
      ∧ runKeys 1 QUIT_TIMES [withControlKey 113, withControlKey 113] = some 1
      ∧ (∀ k : Int, k ≠ withControlKey 113 →
          ∀ qt : Int, processKeyQuitTimes 1 qt k = some QUIT_TIMES)
      ∧ (∀ qt : Int, processKeyQuitTimes 0 qt (withControlKey 113) = none)) :=
  ⟨by norm_num, C2_quit_countdown 1 (by norm_num)⟩

/-- C3 (code bug): `cxToRx` gives a control character the render width
`CONTROL_SEQUENCE_WIDTH = 2` (matching `Update`, which renders it as two
bytes `^A`), but `rxToCx` adds `CONTROL_SEQUENCE_WIDTH` *before* the shared
`curRx++`, treating it as width 3.  On the one-character row `[0x01]`,
`cxToRx 1 = 2` but `rxToCx 2 = 0`, so `rxToCx (cxToRx 1) = 0 ≠ 1` and the two
maps are not mutual inverses. -/
theorem C3_rxToCx_control_width_bug :
    (freshRow [1]).cxToRx 1 = 2
    ∧ (freshRow [1]).rxToCx (((freshRow [1]).cxToRx 1 : Nat) : Int) = 0
    ∧ renderChars [1] 0 = [94, 65] := by
  decide

/-- C4: on rows `/* start`, `middle`, `end */ code` under the go syntax
(block markers `/*`, `*/`), a single highlight call on row 0 leaves row 0 with
`hlOpenComment = true`, row 1 entirely `HL_MLCOMMENT` with
`hlOpenComment = true`, and row 2 `HL_MLCOMMENT` exactly through `*/` with the
trailing ` code` not block-comment and `hlOpenComment = false`.  Rows 1 and 2
start with an empty (stale) `hl`, so their final tags can only come from the
cascade a changed `hlOpenComment` triggers into the following row. -/
theorem C4_block_comment_cascade :
    ((bcEditor.row.get? 1).map (·.hl) = some []
      ∧ (bcEditor.row.get? 2).map (·.hl) = some [])
    ∧ (((bcEditor.updateSyntaxFrom 0).row.get? 0).map (·.hlOpenComment) = some true
      ∧ ((bcEditor.updateSyntaxFrom 0).row.get? 1).map (·.hl)
          = some (List.replicate 6 HL_MLCOMMENT)
      ∧ ((bcEditor.updateSyntaxFrom 0).row.get? 1).map (·.hlOpenComment) = some true
      ∧ ((bcEditor.updateSyntaxFrom 0).row.get? 2).map (·.hl)
          = some (List.replicate 6 HL_MLCOMMENT ++ List.replicate 5 HL_NORMAL)
      ∧ ((bcEditor.updateSyntaxFrom 0).row.get? 2).map (·.hlOpenComment)
          = some false) := by
  decide

/-- C5: the render pass expands a tab at render column 0 to exactly 4 spaces
and a tab at render column 2 to exactly 2 spaces (reaching column 4); in
general a tab emits exactly the spaces needed to reach the next multiple of
`TAB_STOP = 4`. -/
theorem C5_tab_expansion :
    renderChars [9] 0 = [32, 32, 32, 32]
    ∧ renderChars [97, 98, 9] 0 = [97, 98, 32, 32]
    ∧ ∀ (rest : List Nat) (idx : Nat),
        renderChars (9 :: rest) idx
          = List.replicate (TAB_STOP - idx % TAB_STOP) 32
            ++ renderChars rest (idx + (TAB_STOP - idx % TAB_STOP)) := by
  refine ⟨by decide, by decide, ?_⟩
  intro rest idx
  have h4 : idx % 4 = 0 ∨ idx % 4 = 1 ∨ idx % 4 = 2 ∨ idx % 4 = 3 := by omega
  simp only [renderChars, Nat.reduceBEq, if_pos rfl]
  rcases h4 with h | h | h | h
  · have e1 : (idx + 1) % 4 = 1 := by omega
    have e2 : (idx + 2) % 4 = 2 := by omega
    have e3 : (idx + 3) % 4 = 3 := by omega
    have e4 : (idx + 4) % 4 = 0 := by omega
    simp only [tabPadLoop, TAB_STOP, e1, e2, e3, e4, h]
    norm_num [List.replicate]
  · have e1 : (idx + 1) % 4 = 2 := by omega
    have e2 : (idx + 2) % 4 = 3 := by omega
    have e3 : (idx + 3) % 4 = 0 := by omega
    simp only [tabPadLoop, TAB_STOP, e1, e2, e3, h]
    norm_num [List.replicate]
  · have e1 : (idx + 1) % 4 = 3 := by omega
    have e2 : (idx + 2) % 4 = 0 := by omega
    simp only [tabPadLoop, TAB_STOP, e1, e2, h]
    norm_num [List.replicate]
  · have e1 : (idx + 1) % 4 = 0 := by omega
    simp only [tabPadLoop, TAB_STOP, e1, h]
    norm_num [List.replicate]

/-- C7: in the three-row buffer where only row 0's render contains the query
`foo`, a forward search step (`ARROW_RIGHT`) whose last match is row 2 wraps
past the end and lands on row 0, and a backward step (`ARROW_LEFT`) whose last
match is row 0 wraps past the start and also lands on row 0; the scan is the
`for range totalRows` loop, so it examines at most `totalRows` rows and always
terminates. -/
theorem C7_search_wraps_both_directions :
    ((findCallback findEditor
        { lastMatch := 2, direction := 1, savedHlLine := 0, savedHl := none }
        (chs ['f','o','o']) ARROW_RIGHT).2.lastMatch = 0
      ∧ (findCallback findEditor
          { lastMatch := 2, direction := 1, savedHlLine := 0, savedHl := none }
          (chs ['f','o','o']) ARROW_RIGHT).1.cy = 0)
    ∧ ((findCallback findEditor
        { lastMatch := 0, direction := 1, savedHlLine := 0, savedHl := none }
        (chs ['f','o','o']) ARROW_LEFT).2.lastMatch = 0
      ∧ (findCallback findEditor
          { lastMatch := 0, direction := 1, savedHlLine := 0, savedHl := none }
          (chs ['f','o','o']) ARROW_LEFT).1.cy = 0) := by
  decide

/-- C6: splitting any single row at any column `i ∈ [0, len]` with
`InsertNewline` (which leaves the cursor at column 0 of the new row) and then
deleting backwards with `DeleteChar` re-joins the two rows into exactly the
original content, and the row count returns to 1. -/
theorem C6_split_then_join_restores_row (s : List Nat) (i : Nat) (hi : i ≤ s.length) :
    (((singleRowEditor s i).insertNewline).deleteChar).row.map (·.chars) = [s]
    ∧ (((singleRowEditor s i).insertNewline).deleteChar).totalRows = 1 := by
  obtain ⟨hm, hcy, hcx, ht⟩ := insertNewline_single s i hi
  obtain ⟨h1, h2⟩ := deleteChar_join _ (s.take i) (s.drop i) hm hcy hcx ht
  exact ⟨by rw [h1, List.take_append_drop], h2⟩

/-- C6 witness: the round trip on the row `abc` split at column 1. -/
theorem C6_split_then_join_restores_row_witness :
    1 ≤ [97, 98, 99].length
    ∧ ((((singleRowEditor [97, 98, 99] 1).insertNewline).deleteChar).row.map (·.chars)
          = [[97, 98, 99]]
      ∧ (((singleRowEditor [97, 98, 99] 1).insertNewline).deleteChar).totalRows = 1) :=
  ⟨by decide, C6_split_then_join_restores_row [97, 98, 99] 1 (by decide)⟩

/-- An editor for the C8 witness: one well-formed row under the go syntax. -/
def c8Editor : Editor := baseEditor [freshRow [97, 9, 98]] (some goSyntaxEd)

/-- C8: if every row satisfies `len(hl) = len(render)`, the invariant is
preserved by the row re-render (`Update`, including its highlight cascade), by
the highlight pass itself (`UpdateSyntax` from any row), and by the search
overlay (`FindCallback`: restore of the saved highlights, then save and
`HL_MATCH` overwrite on the matched row).  A re-rendered row re-establishes
the invariant outright, since `UpdateSyntax` allocates `hl` at the new render
length. -/
theorem C8_hl_matches_render_length (e : Editor) (idx : Nat) (st : FindState)
    (q : List Nat) (key : Int) (h : rowsOK e) :
    rowsOK (e.updateRowAt idx) ∧ rowsOK (e.updateSyntaxFrom idx)
    ∧ rowsOK (findCallback e st q key).1 :=
  ⟨rowsOK_updateRowAt e idx h, rowsOK_updateSyntaxFrom e idx h,
   rowsOK_findCallback e st q key h⟩

/-- C8 witness: the invariant and its preservation on a concrete one-row
buffer, with a search step that saves, overwrites and restores highlights. -/
theorem C8_hl_matches_render_length_witness :
    rowsOK c8Editor
    ∧ (rowsOK (c8Editor.updateRowAt 0) ∧ rowsOK (c8Editor.updateSyntaxFrom 0)
      ∧ rowsOK (findCallback c8Editor
          { lastMatch := -1, direction := 1, savedHlLine := 0,
            savedHl := some [7, 7] } [97] ARROW_RIGHT).1) :=
  ⟨by decide, C8_hl_matches_render_length c8Editor 0
    { lastMatch := -1, direction := 1, savedHlLine := 0, savedHl := some [7, 7] }
    [97] ARROW_RIGHT (by decide)⟩

/-- C9: `InsertRow` with a position outside `[0, rowCount]` and `DeleteRow`
with a position outside `[0, rowCount)` are silent no-ops: the whole editor
state (rows, row count, dirty counter) is returned unchanged and no error is
surfaced. -/
theorem C9_out_of_range_row_ops_are_noops (e : Editor) (a b : Int)
    (s : List Nat) (rl : Int)
    (ha : a < 0 ∨ a > e.totalRows) (hb : b < 0 ∨ b ≥ e.totalRows) :
    e.insertRow a s rl = e ∧ e.deleteRow b = e := by
  constructor
  · unfold Editor.insertRow
    rw [if_pos (by simp only [Bool.or_eq_true, decide_eq_true_eq]; exact ha)]
  · unfold Editor.deleteRow
    rw [if_pos (by simp only [Bool.or_eq_true, decide_eq_true_eq]; exact hb)]

/-- C9 witness: inserting at -1 and deleting at 5 in a one-row buffer. -/
theorem C9_out_of_range_row_ops_are_noops_witness :
    ((-1 : Int) < 0 ∨ (-1 : Int) > (singleRowEditor [97] 0).totalRows)
    ∧ ((5 : Int) < 0 ∨ (5 : Int) ≥ (singleRowEditor [97] 0).totalRows)
    ∧ ((singleRowEditor [97] 0).insertRow (-1) [98] 1 = singleRowEditor [97] 0
      ∧ (singleRowEditor [97] 0).deleteRow 5 = singleRowEditor [97] 0) :=
  ⟨by decide, by decide,
   C9_out_of_range_row_ops_are_noops (singleRowEditor [97] 0) (-1) 5 [98] 1
     (by decide) (by decide)⟩

/-- C10: the editor-level `DeleteChar` returns the state unchanged (rows, row
count, cursor, dirty counter and all) when the cursor sits on the virtual line
one past the last row (`cy = totalRows`) or at the very start of the buffer
(`cx = 0, cy = 0`). -/
theorem C10_deleteChar_noop_at_boundaries (e : Editor)
    (h : e.cy = e.totalRows ∨ (e.cx = 0 ∧ e.cy = 0)) : e.deleteChar = e := by
  unfold Editor.deleteChar
  rcases h with h | ⟨h1, h2⟩
  · rw [if_pos (by simp only [beq_iff_eq]; exact h)]
  · by_cases hq : (e.cy == e.totalRows) = true
    · rw [if_pos hq]
    · rw [if_neg hq,
        if_pos (by simp only [Bool.and_eq_true, beq_iff_eq]; exact ⟨h1, h2⟩)]

/-- C10 witness: `DeleteChar` at the very start of the one-row buffer `a`. -/
theorem C10_deleteChar_noop_at_boundaries_witness :
    ((singleRowEditor [97] 0).cy = (singleRowEditor [97] 0).totalRows
      ∨ ((singleRowEditor [97] 0).cx = 0 ∧ (singleRowEditor [97] 0).cy = 0))
    ∧ (singleRowEditor [97] 0).deleteChar = singleRowEditor [97] 0 :=
  ⟨Or.inr ⟨rfl, rfl⟩,
   C10_deleteChar_noop_at_boundaries (singleRowEditor [97] 0) (Or.inr ⟨rfl, rfl⟩)⟩

end Goditor
